import Mathlib

/-!
Verification development for the Hall A analyzer decoder sources.

Shallow embedding of:
* `Decoder::PipeliningModule` (block splitting of CODA wire buffers),
* `Decoder::FastbusModule::LoadSlot` (per-slot word scanning),
* `Decoder::THaEtClient` (event-size validation in `codaRead`, `isOpen`,
  `init`, `codaClose`),
* `Podd::SeekDBdate` and `Podd::LoadDBvalue` (time-stamped database lookup).

Machine words (C `UInt_t`) are modelled as `Nat` with explicit masking; the
source only ever inspects masked bit fields, so no wrap-around arithmetic is
needed.  C `Int_t` return codes are modelled as `Int`.  Messages printed to
`cerr` are modelled as explicit `errors` / `diags` lists so that "the mismatch
is only logged" becomes a provable statement about the returned state.
-/

/-- State of a `Decoder::PipeliningModule` (fields of the C++ class that
`SplitBuffer` / `GetNextBlock` read or write).  `eventblock` is the sub-buffer
accumulator, `indexBuffer` the forward-only read cursor (`index_buffer`),
`dataTypeDef` the sticky 4-bit word-type register (`data_type_def`),
`blockSize` the `block_size` member of the `Module` base class.  `errors`
models the `cerr` stream of `SplitBuffer`'s block-count consistency check. -/
structure PipeliningModule where
  fCrate : Nat
  fSlot : Nat
  fMultiBlockMode : Bool
  fBlockIsDone : Bool
  fFirstTime : Bool
  fBlockHeader : Nat
  dataTypeDef : Nat
  blockSize : Nat
  fNWarnings : Nat
  indexBuffer : Nat
  eventblock : List (List Nat)
  errors : List String
  deriving Repr, DecidableEq

/-- The constructor `PipeliningModule::PipeliningModule(crate, slot)`:
`fNWarnings(0), fBlockHeader(0), data_type_def(15), fFirstTime(true),
index_buffer(0)`, then `fMultiBlockMode = false; fBlockIsDone = false;
ReStart();`. -/
def PipeliningModule.new (crate slot : Nat) : PipeliningModule where
  fCrate := crate
  fSlot := slot
  fMultiBlockMode := false
  fBlockIsDone := false
  fFirstTime := true
  fBlockHeader := 0
  dataTypeDef := 15
  blockSize := 0
  fNWarnings := 0
  indexBuffer := 0
  eventblock := []
  errors := []

/-- The loop-local variables of `PipeliningModule::SplitBuffer`
(`oneEventBuffer`, `eventnum`, `slot_blk_hdr`, `slot_evt_hdr`,
`BlockStart`), threaded through the word loop. -/
structure SplitLocal where
  oneEventBuffer : List Nat
  eventnum : Nat
  slotBlkHdr : Nat
  slotEvtHdr : Nat
  blockStart : Nat
  deriving Repr, DecidableEq

/-- One iteration of the word loop in `PipeliningModule::SplitBuffer`.
`data_type_id` is bit 31; when it is set, the 4-bit type field (bits 30..27)
is latched into `data_type_def`, otherwise the previous value applies.  The
switch on `data_type_def` handles block header (0), block trailer (1), event
header (2); every other type falls to the default (ordinary data) case. -/
def splitStep (acc : PipeliningModule × SplitLocal) (data : Nat) :
    PipeliningModule × SplitLocal :=
  let s := acc.1
  let l := acc.2
  let dataTypeId := (data >>> 31) &&& 1
  let dtd := if dataTypeId = 1 then (data >>> 27) &&& 0xF else s.dataTypeDef
  let s := { s with dataTypeDef := dtd }
  if dtd = 0 then
    -- case 0: block header
    if dataTypeId = 1 then
      let slotBlkHdr := (data >>> 22) &&& 0x1F
      let bsize := data &&& 0xFF
      let multi := if bsize > 1 then true else s.fMultiBlockMode
      let bstart := if multi = true ∧ slotBlkHdr = s.fSlot then 1 else l.blockStart
      ({ s with fBlockHeader := data, blockSize := bsize, fMultiBlockMode := multi },
       { l with slotBlkHdr := slotBlkHdr, blockStart := bstart })
    else (s, l)
  else if dtd = 1 then
    -- case 1: block trailer
    let slotBlkTrl := (data >>> 22) &&& 0x1F
    if s.fMultiBlockMode = true ∧ slotBlkTrl = s.fSlot then
      ({ s with eventblock := s.eventblock ++ [l.oneEventBuffer ++ [data]] },
       { l with blockStart := l.blockStart + 1, oneEventBuffer := [] })
    else (s, l)
  else if dtd = 2 then
    -- case 2: event header
    let slotEvtHdr := (data >>> 22) &&& 0x1F
    let evtNum := data &&& 0x3FFFFF
    let evtNumModBlock := if s.blockSize = 0 then 0 else evtNum % s.blockSize
    let bstart := if l.slotBlkHdr = s.fSlot then l.blockStart + 1 else l.blockStart
    if s.fMultiBlockMode = true ∧ l.slotBlkHdr = s.fSlot then
      let pushPrev := bstart ≠ 2
      let ebNew := if pushPrev then s.eventblock ++ [l.oneEventBuffer] else s.eventblock
      let oneNew : List Nat := if pushPrev then [] else l.oneEventBuffer
      ({ s with eventblock := ebNew },
       { l with slotEvtHdr := slotEvtHdr, blockStart := bstart,
                eventnum := evtNumModBlock,
                oneEventBuffer := oneNew ++ [s.fBlockHeader, data] })
    else
      (s, { l with slotEvtHdr := slotEvtHdr, blockStart := bstart })
  else
    -- default: ordinary data; rate-limited slot-consistency warning counter
    let s := if l.slotBlkHdr ≠ l.slotEvtHdr then { s with fNWarnings := s.fNWarnings + 1 } else s
    if s.fMultiBlockMode = true ∧ l.slotBlkHdr = s.fSlot then
      (s, { l with oneEventBuffer := l.oneEventBuffer ++ [data] })
    else (s, l)

/-- Message emitted by `SplitBuffer` when the number of produced sub-buffers
differs from the declared block size. -/
def blockCountMsg : String := "PipeliningModule::ERROR:  num events in block inconsistent"

/-- Post-loop tail of `PipeliningModule::SplitBuffer`: the single-block
pass-through when multiblock mode was never entered, otherwise the block-count
consistency check (mismatch only appends an error message). -/
def splitFinish (s : PipeliningModule) (codabuffer : List Nat) :
    PipeliningModule × Int :=
  if s.fMultiBlockMode = false then
    ({ s with eventblock := [codabuffer], indexBuffer := 1 }, 1)
  else if s.blockSize = s.eventblock.length then (s, 0)
  else ({ s with errors := s.errors ++ [blockCountMsg] }, 0)

/-- The initial values of the loop locals of `SplitBuffer`. -/
def splitLocal0 : SplitLocal :=
  { oneEventBuffer := [], eventnum := 1, slotBlkHdr := 0, slotEvtHdr := 0, blockStart := 0 }

/-- The scan phase of `SplitBuffer`: `block_size = 0`, the word loop, then
`fFirstTime = false`. -/
def splitScan (s : PipeliningModule) (codabuffer : List Nat) : PipeliningModule :=
  let r := codabuffer.foldl splitStep ({ s with blockSize := 0 }, splitLocal0)
  { r.1 with fFirstTime := false }

/-- `PipeliningModule::SplitBuffer(codabuffer)`.  Clears the accumulator and
the done flag, short-circuits when the module has already seen a buffer and is
not in multiblock mode, otherwise scans the words with `splitStep`.  Returns
the updated module state and the C return value (1 on the single-block paths,
0 on the multiblock path). -/
def SplitBuffer (s0 : PipeliningModule) (codabuffer : List Nat) :
    PipeliningModule × Int :=
  let s := { s0 with eventblock := ([] : List (List Nat)), fBlockIsDone := false }
  if s.fFirstTime = false ∧ s.fMultiBlockMode = false then
    ({ s with eventblock := [codabuffer], indexBuffer := 1 }, 1)
  else
    splitFinish (splitScan s codabuffer) codabuffer

/-- `PipeliningModule::GetIndex()`: the current read index, or 0 (with a
warning in the source) if the cursor is out of range. -/
def GetIndex (s : PipeliningModule) : Nat :=
  let idx := s.indexBuffer - 1
  if s.indexBuffer > 0 ∧ idx < s.eventblock.length then idx else 0

/-- `PipeliningModule::GetNextBlock()`: forward-only iteration over the
produced sub-buffers; sets `fBlockIsDone` when handing out the last one. -/
def GetNextBlock (s : PipeliningModule) : PipeliningModule × List Nat :=
  if s.eventblock = [] then (s, [])
  else if s.fMultiBlockMode = false then (s, s.eventblock.getD 0 [])
  else
    let s1 := if s.indexBuffer = s.eventblock.length - 1
              then { s with fBlockIsDone := true } else s
    let s2 := { s1 with indexBuffer := s1.indexBuffer + 1 }
    (s2, s2.eventblock.getD (GetIndex s2) [])

/-- `PipeliningModule::ReStart()`. -/
def ReStart (s : PipeliningModule) : PipeliningModule :=
  { s with indexBuffer := 0, fBlockIsDone := false }

/-- `PipeliningModule::BlockIsDone()`. -/
def BlockIsDone (s : PipeliningModule) : Bool := s.fBlockIsDone

/-- Repeated `GetNextBlock`: the list of sub-buffers handed out by `n`
consecutive calls, together with the final module state. -/
def drainBlocks : PipeliningModule → Nat → List (List Nat) × PipeliningModule
  | s, 0 => ([], s)
  | s, n + 1 =>
    let p := GetNextBlock s
    let q := drainBlocks p.1 n
    (p.2 :: q.1, q.2)

/-- A word that `SplitBuffer` parses as a block header declaring more than one
event: tag bit set, 4-bit type field 0, block-size byte greater than 1.  Only
such words can switch the module into multiblock mode. -/
def IsBigBlockHeader (d : Nat) : Prop :=
  (d >>> 31) &&& 1 = 1 ∧ (d >>> 27) &&& 0xF = 0 ∧ 1 < d &&& 0xFF

instance (d : Nat) : Decidable (IsBigBlockHeader d) := by
  unfold IsBigBlockHeader; infer_instance

-- Concrete wire words used in the scenario claims (slot 3).
/-- Block header, slot 3, block number 1, declared block size 2. -/
def bhW : Nat := 0x80C00102
/-- Block header, slot 3, block number 1, declared block size 3. -/
def bh3W : Nat := 0x80C00103
/-- Event header, slot 3, event index 0. -/
def eh0W : Nat := 0x90C00000
/-- Event header, slot 3, event index 1. -/
def eh1W : Nat := 0x90C00001
/-- Block trailer, slot 3, word count field 7. -/
def trW : Nat := 0x88C00007

example : (bhW >>> 31) &&& 1 = 1 ∧ (bhW >>> 27) &&& 0xF = 0 ∧
    (bhW >>> 22) &&& 0x1F = 3 ∧ bhW &&& 0xFF = 2 := by decide

example : (eh0W >>> 27) &&& 0xF = 2 ∧ (eh0W >>> 22) &&& 0x1F = 3 := by decide

example : (trW >>> 27) &&& 0xF = 1 ∧ (trW >>> 22) &&& 0x1F = 3 := by decide

-- Scenario with untagged data words (bit 31 clear): splitting produces FIVE
-- sub-buffers, because an untagged word after an event header re-enters the
-- event-header case.
example :
    (SplitBuffer (PipeliningModule.new 1 3)
      [bhW, eh0W, 0x123, 0x456, eh1W, 0x789, trW]).1.eventblock =
    [[bhW, eh0W], [bhW, 0x123], [bhW, 0x456], [bhW, eh1W], [bhW, 0x789, trW]] := by
  decide

-- Scenario with tagged (type-defining) data words: exactly two sub-buffers.
example :
    (SplitBuffer (PipeliningModule.new 1 3)
      [bhW, eh0W, 0xF0000123, 0xF0000456, eh1W, 0xF0000789, trW]).1.eventblock =
    [[bhW, eh0W, 0xF0000123, 0xF0000456], [bhW, eh1W, 0xF0000789, trW]] := by
  decide

-- Iteration over the two produced sub-buffers (tagged data words).
example :
    (drainBlocks (SplitBuffer (PipeliningModule.new 1 3)
      [bhW, eh0W, 0xF0000123, 0xF0000456, eh1W, 0xF0000789, trW]).1 2).1 =
    [[bhW, eh0W, 0xF0000123, 0xF0000456], [bhW, eh1W, 0xF0000789, trW]] ∧
    BlockIsDone (drainBlocks (SplitBuffer (PipeliningModule.new 1 3)
      [bhW, eh0W, 0xF0000123, 0xF0000456, eh1W, 0xF0000789, trW]).1 2).2 = true := by
  decide

theorem splitStep_indexBuffer (a : PipeliningModule × SplitLocal) (d : Nat) :
    (splitStep a d).1.indexBuffer = a.1.indexBuffer := by
  simp only [splitStep]
  split_ifs <;> rfl

theorem splitStep_fBlockIsDone (a : PipeliningModule × SplitLocal) (d : Nat) :
    (splitStep a d).1.fBlockIsDone = a.1.fBlockIsDone := by
  simp only [splitStep]
  split_ifs <;> rfl

theorem splitStep_errors (a : PipeliningModule × SplitLocal) (d : Nat) :
    (splitStep a d).1.errors = a.1.errors := by
  simp only [splitStep]
  split_ifs <;> rfl

theorem splitStep_multi_mono (a : PipeliningModule × SplitLocal) (d : Nat)
    (h : a.1.fMultiBlockMode = true) : (splitStep a d).1.fMultiBlockMode = true := by
  simp only [splitStep]
  split_ifs <;> simp_all

theorem foldl_splitStep_indexBuffer (buf : List Nat) :
    ∀ a : PipeliningModule × SplitLocal,
      (buf.foldl splitStep a).1.indexBuffer = a.1.indexBuffer := by
  induction buf with
  | nil => intro a; rfl
  | cons d rest ih =>
    intro a
    simp only [List.foldl_cons]
    rw [ih, splitStep_indexBuffer]

theorem foldl_splitStep_fBlockIsDone (buf : List Nat) :
    ∀ a : PipeliningModule × SplitLocal,
      (buf.foldl splitStep a).1.fBlockIsDone = a.1.fBlockIsDone := by
  induction buf with
  | nil => intro a; rfl
  | cons d rest ih =>
    intro a
    simp only [List.foldl_cons]
    rw [ih, splitStep_fBlockIsDone]

theorem foldl_splitStep_errors (buf : List Nat) :
    ∀ a : PipeliningModule × SplitLocal,
      (buf.foldl splitStep a).1.errors = a.1.errors := by
  induction buf with
  | nil => intro a; rfl
  | cons d rest ih =>
    intro a
    simp only [List.foldl_cons]
    rw [ih, splitStep_errors]

theorem foldl_splitStep_multi_mono (buf : List Nat) :
    ∀ a : PipeliningModule × SplitLocal, a.1.fMultiBlockMode = true →
      (buf.foldl splitStep a).1.fMultiBlockMode = true := by
  induction buf with
  | nil => intro a h; exact h
  | cons d rest ih =>
    intro a h
    simp only [List.foldl_cons]
    exact ih _ (splitStep_multi_mono a d h)

/-- The C1 scenario buffer with plain (untagged, bit 31 clear) data words
D1 = 0x123, D2 = 0x456, D3 = 0x789. -/
def cbufUntagged : List Nat := [bhW, eh0W, 0x123, 0x456, eh1W, 0x789, trW]

/-- The C1 scenario buffer with type-defining (tagged, bit 31 set, type field
14) data words D1, D2, D3. -/
def cbufTagged : List Nat := [bhW, eh0W, 0xF0000123, 0xF0000456, eh1W, 0xF0000789, trW]

/-- C1 (counterexample): for the claimed scenario with plain untagged data
words D1, D2, D3, splitting does NOT yield two sub-buffers with D1, D2
appended to the first event: an untagged word keeps the previous
`data_type_def` (= 2, event header), so each of D1, D2, D3 re-enters the
event-header case and opens a new sub-buffer.  The split produces five
sub-buffers and the first one handed out by `GetNextBlock` is
`[BlockHeader, EventHeader0]`, not `[BlockHeader, EventHeader0, D1, D2]`. -/
theorem c1_counterexample :
    (GetNextBlock (SplitBuffer (PipeliningModule.new 1 3) cbufUntagged).1).2 =
      [bhW, eh0W] ∧
    [bhW, eh0W] ≠ [bhW, eh0W, 0x123, 0x456] ∧
    (SplitBuffer (PipeliningModule.new 1 3) cbufUntagged).1.eventblock.length = 5 := by
  decide

/-- C1 (amended): same scenario, but with the data words D1, D2, D3 carried
as type-defining data words (tag bit 31 set, 4-bit type field other than
0/1/2 — as JLab pipelined modules emit them).  Then splitting followed by
iteration yields exactly two sub-buffers, first
`[BlockHeader, EventHeader0, D1, D2]`, then
`[BlockHeader, EventHeader1, D3, BlockTrailer]`, with `BlockIsDone` true
thereafter; the tagged data words are appended as ordinary data to the
currently open sub-event. -/
theorem c1_amended :
    (SplitBuffer (PipeliningModule.new 1 3) cbufTagged).1.eventblock.length = 2 ∧
    (GetNextBlock (SplitBuffer (PipeliningModule.new 1 3) cbufTagged).1).2 =
      [bhW, eh0W, 0xF0000123, 0xF0000456] ∧
    (GetNextBlock (GetNextBlock
        (SplitBuffer (PipeliningModule.new 1 3) cbufTagged).1).1).2 =
      [bhW, eh1W, 0xF0000789, trW] ∧
    BlockIsDone (GetNextBlock (GetNextBlock
        (SplitBuffer (PipeliningModule.new 1 3) cbufTagged).1).1).1 = true ∧
    BlockIsDone (GetNextBlock
        (SplitBuffer (PipeliningModule.new 1 3) cbufTagged).1).1 = false := by
  decide

/-- C4 (counterexample): the forward-only read cursor (`index_buffer`) is NOT
rebuilt at the start of a `SplitBuffer` call.  After fully iterating a
multiblock buffer the cursor is 2; a subsequent `SplitBuffer` call on the same
module leaves it at 2 instead of rebuilding it from scratch (a fresh
`BlockSplitState` has cursor 0). -/
theorem c4_counterexample :
    (GetNextBlock (GetNextBlock
        (SplitBuffer (PipeliningModule.new 1 3) cbufTagged).1).1).1.indexBuffer = 2 ∧
    (SplitBuffer (GetNextBlock (GetNextBlock
        (SplitBuffer (PipeliningModule.new 1 3) cbufTagged).1).1).1 cbufTagged).1.indexBuffer
      = 2 ∧ (2 : Nat) ≠ 0 := by
  decide

theorem splitFinish_multi (s : PipeliningModule) (buf : List Nat) :
    (splitFinish s buf).1.fMultiBlockMode = s.fMultiBlockMode := by
  unfold splitFinish
  split_ifs <;> rfl

theorem splitFinish_fBlockIsDone (s : PipeliningModule) (buf : List Nat) :
    (splitFinish s buf).1.fBlockIsDone = s.fBlockIsDone := by
  unfold splitFinish
  split_ifs <;> rfl

theorem splitFinish_indexBuffer (s : PipeliningModule) (buf : List Nat)
    (h : s.fMultiBlockMode = true) :
    (splitFinish s buf).1.indexBuffer = s.indexBuffer := by
  unfold splitFinish
  split_ifs with h1 h2
  · rw [h] at h1; exact absurd h1 (by simp)
  · rfl
  · rfl

theorem splitScan_multi_mono (s : PipeliningModule) (buf : List Nat)
    (h : s.fMultiBlockMode = true) :
    (splitScan s buf).fMultiBlockMode = true := by
  simp only [splitScan]
  exact foldl_splitStep_multi_mono buf _ h

theorem splitScan_fBlockIsDone (s : PipeliningModule) (buf : List Nat) :
    (splitScan s buf).fBlockIsDone = s.fBlockIsDone := by
  simp only [splitScan]
  exact foldl_splitStep_fBlockIsDone buf _

theorem splitScan_indexBuffer (s : PipeliningModule) (buf : List Nat) :
    (splitScan s buf).indexBuffer = s.indexBuffer := by
  simp only [splitScan]
  exact foldl_splitStep_indexBuffer buf _

theorem splitScan_errors (s : PipeliningModule) (buf : List Nat) :
    (splitScan s buf).errors = s.errors := by
  simp only [splitScan]
  exact foldl_splitStep_errors buf _

theorem SplitBuffer_multi_mono (s : PipeliningModule) (buf : List Nat)
    (h : s.fMultiBlockMode = true) :
    (SplitBuffer s buf).1.fMultiBlockMode = true := by
  simp only [SplitBuffer]
  split_ifs with h1
  · exact absurd (h1.2.symm.trans h) (by simp)
  · rw [splitFinish_multi]
    exact splitScan_multi_mono _ buf h

theorem SplitBuffer_fBlockIsDone (s : PipeliningModule) (buf : List Nat) :
    (SplitBuffer s buf).1.fBlockIsDone = false := by
  simp only [SplitBuffer]
  split_ifs with h1
  · rfl
  · rw [splitFinish_fBlockIsDone, splitScan_fBlockIsDone]

theorem SplitBuffer_indexBuffer (s : PipeliningModule) (buf : List Nat)
    (h : s.fMultiBlockMode = true) :
    (SplitBuffer s buf).1.indexBuffer = s.indexBuffer := by
  simp only [SplitBuffer]
  split_ifs with h1
  · exact absurd (h1.2.symm.trans h) (by simp)
  · rw [splitFinish_indexBuffer]
    · exact splitScan_indexBuffer _ buf
    · exact splitScan_multi_mono _ buf h

theorem SplitBuffer_eventblock_fresh (s : PipeliningModule) (buf : List Nat)
    (eb : List (List Nat)) :
    SplitBuffer { s with eventblock := eb } buf = SplitBuffer s buf := by
  cases s
  rfl

/-- C4 (amended): a block header with `block_size > 1` seen during a scan sets
the multiblock-mode flag, and no `SplitBuffer` call ever clears it; the
sub-buffer accumulator is rebuilt from scratch at the start of each
`SplitBuffer` call (the result does not depend on the prior accumulator) and
the done flag is rebuilt as well; but the forward-only read cursor
(`index_buffer`) is NOT rebuilt: on the multiblock path it carries over
unchanged from the previous wire buffer (it is reset only by `ReStart`, or set
to 1 on the single-block paths). -/
theorem c4_amended :
    (∀ s buf, s.fMultiBlockMode = true → (SplitBuffer s buf).1.fMultiBlockMode = true) ∧
    (∀ s buf eb, SplitBuffer { s with eventblock := eb } buf = SplitBuffer s buf) ∧
    (∀ s buf, (SplitBuffer s buf).1.fBlockIsDone = false) ∧
    (∀ s buf, s.fMultiBlockMode = true → (SplitBuffer s buf).1.indexBuffer = s.indexBuffer) ∧
    (SplitBuffer (PipeliningModule.new 1 3) cbufTagged).1.fMultiBlockMode = true :=
  ⟨SplitBuffer_multi_mono, SplitBuffer_eventblock_fresh, SplitBuffer_fBlockIsDone,
   SplitBuffer_indexBuffer, by decide⟩

/-- A module state in multiblock mode with a nonzero read cursor, as left
behind by a fully consumed previous wire buffer. -/
def pmMulti7 : PipeliningModule where
  fCrate := 1
  fSlot := 3
  fMultiBlockMode := true
  fBlockIsDone := false
  fFirstTime := false
  fBlockHeader := 0
  dataTypeDef := 15
  blockSize := 2
  fNWarnings := 0
  indexBuffer := 7
  eventblock := []
  errors := []

/-- Witness for `c4_amended` at a concrete state: the multiblock flag
persists through a `SplitBuffer` call and the cursor value 7 carries over. -/
theorem c4_amended_witness :
    (SplitBuffer pmMulti7 cbufTagged).1.fMultiBlockMode = true ∧
    (SplitBuffer pmMulti7 cbufTagged).1.indexBuffer = 7 := by
  refine ⟨c4_amended.1 pmMulti7 cbufTagged ?_, ?_⟩
  · decide
  · exact c4_amended.2.2.2.1 pmMulti7 cbufTagged (by decide)

theorem splitStep_quiet (a : PipeliningModule × SplitLocal) (d : Nat)
    (hm : a.1.fMultiBlockMode = false) (he : a.1.eventblock = [])
    (hbig : ¬ IsBigBlockHeader d) :
    (splitStep a d).1.fMultiBlockMode = false ∧ (splitStep a d).1.eventblock = [] := by
  simp only [splitStep]
  split_ifs <;> simp_all [IsBigBlockHeader]

theorem foldl_splitStep_quiet (buf : List Nat) :
    ∀ a : PipeliningModule × SplitLocal,
      (∀ d ∈ buf, ¬ IsBigBlockHeader d) →
      a.1.fMultiBlockMode = false → a.1.eventblock = [] →
      (buf.foldl splitStep a).1.fMultiBlockMode = false ∧
        (buf.foldl splitStep a).1.eventblock = [] := by
  induction buf with
  | nil => intro a _ hm he; exact ⟨hm, he⟩
  | cons d rest ih =>
    intro a hb hm he
    simp only [List.foldl_cons]
    have hq := splitStep_quiet a d hm he (hb d (by simp))
    exact ih _ (fun x hx => hb x (by simp [hx])) hq.1 hq.2

theorem splitScan_quiet (s : PipeliningModule) (buf : List Nat)
    (hm : s.fMultiBlockMode = false) (he : s.eventblock = [])
    (hb : ∀ d ∈ buf, ¬ IsBigBlockHeader d) :
    (splitScan s buf).fMultiBlockMode = false ∧ (splitScan s buf).eventblock = [] := by
  simp only [splitScan]
  exact foldl_splitStep_quiet buf _ hb hm he

/-- C2: for every single-block wire buffer — the module is not in multiblock
mode and no word of the buffer is a tagged block header declaring a block size
greater than 1, so multiblock mode is never entered — `SplitBuffer` produces
exactly one sub-buffer that is equal, word for word, to the input buffer (and
returns 1). -/
theorem c2_single_block (s : PipeliningModule) (buf : List Nat)
    (hm : s.fMultiBlockMode = false)
    (hb : ∀ d ∈ buf, ¬ IsBigBlockHeader d) :
    (SplitBuffer s buf).1.eventblock = [buf] ∧ (SplitBuffer s buf).2 = 1 := by
  simp only [SplitBuffer]
  split_ifs with h1
  · exact ⟨rfl, rfl⟩
  · have hq := splitScan_quiet
      { s with eventblock := ([] : List (List Nat)), fBlockIsDone := false } buf hm rfl hb
    unfold splitFinish
    split_ifs with h2 h3
    · exact ⟨rfl, rfl⟩
    · exact absurd hq.1 h2
    · exact absurd hq.1 h2

/-- Witness for `c2_single_block`: a fresh module, slot 3, and a wire buffer
containing a block header with block size 1 plus ordinary data. -/
theorem c2_single_block_witness :
    (SplitBuffer (PipeliningModule.new 1 3) [0x80C00101, 0x90C00000, 0x123]).1.eventblock
      = [[0x80C00101, 0x90C00000, 0x123]] ∧
    (SplitBuffer (PipeliningModule.new 1 3) [0x80C00101, 0x90C00000, 0x123]).2 = 1 :=
  c2_single_block (PipeliningModule.new 1 3) [0x80C00101, 0x90C00000, 0x123]
    (by decide) (by decide)

theorem drop_eq_getD_cons {α : Type} (d : α) :
    ∀ (L : List α) (i : Nat), i < L.length → L.drop i = L.getD i d :: L.drop (i + 1) := by
  intro L
  induction L with
  | nil => intro i h; simp at h
  | cons x t ih =>
    intro i h
    cases i with
    | zero => simp
    | succ j =>
      simp only [List.drop_succ_cons, List.getD_cons_succ]
      exact ih j (by simpa using h)

theorem GetNextBlock_last (s : PipeliningModule) (hm : s.fMultiBlockMode = true)
    (hl : s.indexBuffer + 1 = s.eventblock.length) :
    GetNextBlock s = ({ s with fBlockIsDone := true, indexBuffer := s.indexBuffer + 1 },
      s.eventblock.getD s.indexBuffer []) := by
  have hne : ¬ s.eventblock = [] := by
    intro h0
    rw [h0] at hl
    simp at hl
  have hnm : ¬ s.fMultiBlockMode = false := by simp [hm]
  simp only [GetNextBlock, GetIndex]
  rw [if_neg hne, if_neg hnm]
  split_ifs <;> first
    | omega
    | simp_all

theorem GetNextBlock_mid (s : PipeliningModule) (hm : s.fMultiBlockMode = true)
    (hl : s.indexBuffer + 1 < s.eventblock.length) :
    GetNextBlock s = ({ s with indexBuffer := s.indexBuffer + 1 },
      s.eventblock.getD s.indexBuffer []) := by
  have hne : ¬ s.eventblock = [] := by
    intro h0
    rw [h0] at hl
    simp at hl
  have hnm : ¬ s.fMultiBlockMode = false := by simp [hm]
  simp only [GetNextBlock, GetIndex]
  rw [if_neg hne, if_neg hnm]
  split_ifs <;> first
    | omega
    | simp_all

theorem drainBlocks_run : ∀ (n : Nat) (s : PipeliningModule),
    s.fMultiBlockMode = true →
    s.indexBuffer + (n + 1) = s.eventblock.length →
    (drainBlocks s (n + 1)).1 = s.eventblock.drop s.indexBuffer ∧
    (drainBlocks s (n + 1)).2.fBlockIsDone = true := by
  intro n
  induction n with
  | zero =>
    intro s hm hlen
    have hl : s.indexBuffer + 1 = s.eventblock.length := by omega
    simp only [drainBlocks]
    rw [GetNextBlock_last s hm hl]
    constructor
    · rw [drop_eq_getD_cons [] s.eventblock s.indexBuffer (by omega)]
      rw [List.drop_eq_nil_of_le (by omega)]
    · rfl
  | succ m ih =>
    intro s hm hlen
    simp only [drainBlocks]
    rw [GetNextBlock_mid s hm (by omega)]
    have ih' := ih { s with indexBuffer := s.indexBuffer + 1 }
      (by simpa using hm)
      (by show s.indexBuffer + 1 + (m + 1) = s.eventblock.length; omega)
    constructor
    · show s.eventblock.getD s.indexBuffer [] ::
        (drainBlocks { s with indexBuffer := s.indexBuffer + 1 } (m + 1)).1 =
        s.eventblock.drop s.indexBuffer
      rw [ih'.1]
      exact (drop_eq_getD_cons [] s.eventblock s.indexBuffer (by omega)).symm
    · exact ih'.2

theorem SplitBuffer_eq (s : PipeliningModule) (buf : List Nat) :
    SplitBuffer s buf =
      if s.fFirstTime = false ∧ s.fMultiBlockMode = false then
        ({ s with eventblock := [buf], fBlockIsDone := false, indexBuffer := 1 }, 1)
      else splitFinish
        (splitScan { s with eventblock := ([] : List (List Nat)), fBlockIsDone := false } buf)
        buf := rfl

theorem splitFinish_blockSize (s : PipeliningModule) (buf : List Nat)
    (hm : s.fMultiBlockMode = true) :
    (splitFinish s buf).1.blockSize = s.blockSize := by
  unfold splitFinish
  split_ifs with h1 h2 <;> simp_all

theorem splitFinish_eventblock (s : PipeliningModule) (buf : List Nat)
    (hm : s.fMultiBlockMode = true) :
    (splitFinish s buf).1.eventblock = s.eventblock := by
  unfold splitFinish
  split_ifs with h1 h2 <;> simp_all

theorem splitFinish_mismatch (s : PipeliningModule) (buf : List Nat)
    (hm : s.fMultiBlockMode = true) (hne : s.blockSize ≠ s.eventblock.length) :
    splitFinish s buf = ({ s with errors := s.errors ++ [blockCountMsg] }, 0) := by
  unfold splitFinish
  rw [if_neg (by simp [hm]), if_neg hne]

/-- C3: for every wire buffer split in multiblock mode, a mismatch between the
number of produced sub-buffers and the declared block size is only logged:
`SplitBuffer` still returns normally (return value 0, exactly one error
message appended), and every already-produced sub-buffer is retained and
retrievable — after `ReStart`, iterating `GetNextBlock` hands out exactly the
accumulated sub-buffers in order, ending with `fBlockIsDone` true. -/
theorem c3_mismatch_best_effort (s : PipeliningModule) (buf : List Nat)
    (hm : (SplitBuffer s buf).1.fMultiBlockMode = true)
    (hmis : (SplitBuffer s buf).1.blockSize ≠ (SplitBuffer s buf).1.eventblock.length) :
    (SplitBuffer s buf).2 = 0 ∧
    (SplitBuffer s buf).1.errors = s.errors ++ [blockCountMsg] ∧
    ((SplitBuffer s buf).1.eventblock ≠ [] →
      (drainBlocks (ReStart (SplitBuffer s buf).1)
          (SplitBuffer s buf).1.eventblock.length).1 = (SplitBuffer s buf).1.eventblock ∧
      (drainBlocks (ReStart (SplitBuffer s buf).1)
          (SplitBuffer s buf).1.eventblock.length).2.fBlockIsDone = true) := by
  rw [SplitBuffer_eq] at hm hmis ⊢
  split_ifs at hm hmis ⊢ with hE
  · simp only at hm
    rw [hE.2] at hm
    exact absurd hm (by simp)
  · set t := splitScan
      { s with eventblock := ([] : List (List Nat)), fBlockIsDone := false } buf with ht
    have hmt : t.fMultiBlockMode = true := (splitFinish_multi t buf).symm.trans hm
    have hmist : t.blockSize ≠ t.eventblock.length := by
      rw [splitFinish_blockSize t buf hmt, splitFinish_eventblock t buf hmt] at hmis
      exact hmis
    rw [splitFinish_mismatch t buf hmt hmist]
    have herr : t.errors = s.errors := splitScan_errors _ buf
    refine ⟨rfl, ?_, ?_⟩
    · show t.errors ++ [blockCountMsg] = s.errors ++ [blockCountMsg]
      rw [herr]
    · intro hne
      have hne2 : t.eventblock ≠ [] := hne
      have hpos : 0 < t.eventblock.length := List.length_pos.mpr hne2
      obtain ⟨n, hn⟩ : ∃ n, t.eventblock.length = n + 1 :=
        ⟨t.eventblock.length - 1, (Nat.succ_pred_eq_of_pos hpos).symm⟩
      show (drainBlocks (ReStart { t with errors := t.errors ++ [blockCountMsg] })
          t.eventblock.length).1 = t.eventblock ∧
        (drainBlocks (ReStart { t with errors := t.errors ++ [blockCountMsg] })
          t.eventblock.length).2.fBlockIsDone = true
      rw [hn]
      have hd := drainBlocks_run n (ReStart { t with errors := t.errors ++ [blockCountMsg] })
        (by simpa [ReStart] using hmt) (by simpa [ReStart] using hn.symm)
      exact ⟨by simpa [ReStart] using hd.1, hd.2⟩

/-- A multiblock wire buffer whose block header declares 3 events but which
contains only 2 (slot 3, tagged data words). -/
def mismatchBuf : List Nat := [bh3W, eh0W, 0xF0000123, 0xF0000456, eh1W, 0xF0000789, trW]

/-- Witness for `c3_mismatch_best_effort`: the declared block size 3 differs
from the 2 sub-buffers produced; the call still returns 0, logs one message,
and both sub-buffers remain retrievable. -/
theorem c3_mismatch_best_effort_witness :
    (SplitBuffer (PipeliningModule.new 1 3) mismatchBuf).2 = 0 ∧
    (SplitBuffer (PipeliningModule.new 1 3) mismatchBuf).1.errors =
      (PipeliningModule.new 1 3).errors ++ [blockCountMsg] ∧
    ((SplitBuffer (PipeliningModule.new 1 3) mismatchBuf).1.eventblock ≠ [] →
      (drainBlocks (ReStart (SplitBuffer (PipeliningModule.new 1 3) mismatchBuf).1)
          (SplitBuffer (PipeliningModule.new 1 3) mismatchBuf).1.eventblock.length).1 =
        (SplitBuffer (PipeliningModule.new 1 3) mismatchBuf).1.eventblock ∧
      (drainBlocks (ReStart (SplitBuffer (PipeliningModule.new 1 3) mismatchBuf).1)
          (SplitBuffer (PipeliningModule.new 1 3) mismatchBuf).1.eventblock.length).2.fBlockIsDone
        = true) :=
  c3_mismatch_best_effort (PipeliningModule.new 1 3) mismatchBuf (by decide) (by decide)

/-- Modelled from the spec: the bound `MAXROC` (number of readout crates,
declared in Decoder.h, which is not under src/).  The claims only compare
`fCrate` against it, so a representative value is used. -/
def MAXROC : Nat := 32

/-- Modelled from the spec: the bound `MAXSLOT_FB` (highest Fastbus slot,
declared in Decoder.h, which is not under src/).  The claims only compare
`fSlot` against it, so a representative value is used. -/
def MAXSLOT_FB : Nat := 26

/-- Configuration and identity of a `Decoder::FastbusModule`: crate, slot,
header flag, and the per-family bit masks and shifts. -/
structure FastbusModule where
  fCrate : Nat
  fSlot : Nat
  fHasHeader : Bool
  fSlotMask : Nat
  fSlotShift : Nat
  fChanMask : Nat
  fChanShift : Nat
  fDataMask : Nat
  fWdcntMask : Nat
  deriving Repr, DecidableEq

/-- Modelled from the spec: `FastbusModule::IsSlot` is declared in
FastbusModule.h, which is not under src/.  Per the spec, a word belongs to
this module when its slot-mask bits, shifted down, equal the configured slot
(default mask 0xF8000000, shift 27). -/
def IsSlotFB (m : FastbusModule) (w : Nat) : Bool :=
  (w &&& m.fSlotMask) >>> m.fSlotShift == m.fSlot

/-- Modelled from the spec: the channel field extractor of `decodeWord`
(channel mask and shift from the module configuration). -/
def ChanFB (m : FastbusModule) (w : Nat) : Nat :=
  (w &&& m.fChanMask) >>> m.fChanShift

/-- Modelled from the spec: the data-value field extractor of `decodeWord`
(data mask from the module configuration). -/
def DataFB (m : FastbusModule) (w : Nat) : Nat :=
  w &&& m.fDataMask

/-- `FastbusModule::Decode(p)` followed by `sldat->loadData(fChan, fData,
fRawData)`: one decoded hit (channel, value, raw word). -/
def decodeFB (m : FastbusModule) (w : Nat) : Nat × Nat × Nat :=
  (ChanFB m w, DataFB m w, w)

/-- The scan loop of `FastbusModule::LoadSlot`.  The C loop processes `*p`,
advances, and breaks once `p > pstop`; here `left` is the number of words the
pointer may still advance (initially `pstop - evbuffer`), so the word is
processed and the loop continues only while `left > 0`.  Returns
(words seen, captured header, hits in buffer order). -/
def loadSlotGo (m : FastbusModule) :
    List Nat → Nat → Nat → Nat → List (Nat × Nat × Nat) →
      Nat × Nat × List (Nat × Nat × Nat)
  | [], _, seen, hdr, hits => (seen, hdr, hits)
  | w :: rest, left, seen, hdr, hits =>
    if IsSlotFB m w = true then
      if m.fHasHeader = true ∧ seen = 0 then
        if left = 0 then (seen + 1, w, hits)
        else loadSlotGo m rest (left - 1) (seen + 1) w hits
      else
        if left = 0 then (seen + 1, hdr, hits ++ [decodeFB m w])
        else loadSlotGo m rest (left - 1) (seen + 1) hdr (hits ++ [decodeFB m w])
    else (seen, hdr, hits)

/-- Message for the crate bounds check in `LoadSlot`. -/
def crateBoundsMsg : String := "FastBusModule::ERROR: crate out of bounds"

/-- Message for the slot bounds check in `LoadSlot`. -/
def slotBoundsMsg : String := "FastBusModule::ERROR: slot out of bounds"

/-- Message for the post-scan word-count consistency check in `LoadSlot`. -/
def wdcntMismatchMsg : String :=
  "FastbusModule: number of words expected not equal num words seen"

/-- The `first_load` block of `LoadSlot`: clamp an out-of-bounds crate or slot
to 0 and log. -/
def clampCheck (m : FastbusModule) : FastbusModule × List String :=
  let p := if MAXROC ≤ m.fCrate then ({ m with fCrate := 0 }, [crateBoundsMsg])
           else (m, ([] : List String))
  if MAXSLOT_FB < p.1.fSlot then ({ p.1 with fSlot := 0 }, p.2 ++ [slotBoundsMsg])
  else p

/-- Result of one `FastbusModule::LoadSlot` call: the updated process-wide
`first_load` static, the (possibly clamped) module, the scan results, the
diagnostics, and the C return value. -/
structure LoadSlotOut where
  firstAfter : Bool
  modAfter : FastbusModule
  wordsSeen : Nat
  fHeader : Nat
  hits : List (Nat × Nat × Nat)
  diags : List String
  ret : Nat
  deriving Repr, DecidableEq

/-- `FastbusModule::LoadSlot(sldat, evbuffer, pstop)`.  `firstLoad` models the
function-local `static int first_load` (process-wide, not per instance);
`nstop` is the word offset of `pstop` from `evbuffer`.  The post-scan
word-count check only emits a diagnostic. -/
def LoadSlot (firstLoad : Bool) (m : FastbusModule) (ws : List Nat) (nstop : Nat) :
    LoadSlotOut :=
  let p := if firstLoad then clampCheck m else (m, [])
  let r := loadSlotGo p.1 ws nstop 0 0 []
  let d := if r.2.1 = 0 then p.2
           else if r.2.1 &&& p.1.fWdcntMask = r.1 then p.2
           else p.2 ++ [wdcntMismatchMsg]
  { firstAfter := false, modAfter := p.1, wordsSeen := r.1, fHeader := r.2.1,
    hits := r.2.2, diags := d, ret := r.1 }

/-- The words of the buffer that the `LoadSlot` scan processes: the maximal
prefix matching this slot, cut off after `nstop + 1` words (the word at
`pstop` is still processed; the loop breaks when the pointer passes it). -/
def slotRun (m : FastbusModule) (ws : List Nat) (nstop : Nat) : List Nat :=
  (ws.takeWhile (IsSlotFB m)).take (nstop + 1)

-- A spec scenario (slot 31, no header): words [0x00000002, 0xF8010123]; the
-- second word is slot 31, channel 1, value 0x123.
/-- Example module for concrete checks: slot 31, standard Fastbus masks. -/
def fbExample : FastbusModule where
  fCrate := 1
  fSlot := 31
  fHasHeader := false
  fSlotMask := 0xF8000000
  fSlotShift := 27
  fChanMask := 0x001F0000
  fChanShift := 16
  fDataMask := 0x0000FFFF
  fWdcntMask := 0x7F

example : (LoadSlot false fbExample [0xF8010123, 0xF8020456, 0x02] 5).hits =
    [(1, 0x123, 0xF8010123), (2, 0x456, 0xF8020456)] := by decide

example : (LoadSlot false fbExample [0xF8010123, 0xF8020456, 0xF8030789] 1).wordsSeen = 2 := by
  decide

theorem loadSlotGo_data (m : FastbusModule) :
    ∀ (ws : List Nat) (left seen hdr : Nat) (hits : List (Nat × Nat × Nat)),
      (m.fHasHeader = false ∨ 1 ≤ seen) →
      loadSlotGo m ws left seen hdr hits =
        (seen + ((ws.takeWhile (IsSlotFB m)).take (left + 1)).length, hdr,
         hits ++ ((ws.takeWhile (IsSlotFB m)).take (left + 1)).map (decodeFB m)) := by
  intro ws
  induction ws with
  | nil =>
    intro left seen hdr hits h
    simp [loadSlotGo]
  | cons w rest ih =>
    intro left seen hdr hits h
    by_cases hw : IsSlotFB m w = true
    · have hcond : ¬(m.fHasHeader = true ∧ seen = 0) := by
        rcases h with h | h
        · intro hc; rw [h] at hc; exact absurd hc.1 (by simp)
        · intro hc; omega
      cases left with
      | zero =>
        simp [loadSlotGo, hw, hcond, List.takeWhile_cons_of_pos]
      | succ k =>
        simp only [loadSlotGo, hw, if_pos rfl, if_neg hcond]
        rw [if_neg (by omega : ¬ k + 1 = 0)]
        rw [show k + 1 - 1 = k from rfl]
        rw [ih k (seen + 1) hdr (hits ++ [decodeFB m w]) (Or.inr (by omega))]
        simp [List.takeWhile_cons_of_pos hw, List.take_succ_cons]
        omega
    · simp [loadSlotGo, hw, List.takeWhile_cons_of_neg]

theorem loadSlotGo_hdr (m : FastbusModule) (hh : m.fHasHeader = true)
    (ws : List Nat) (nstop : Nat) :
    loadSlotGo m ws nstop 0 0 [] =
      ((slotRun m ws nstop).length, (slotRun m ws nstop).headD 0,
       ((slotRun m ws nstop).tail).map (decodeFB m)) := by
  cases ws with
  | nil => simp [loadSlotGo, slotRun]
  | cons w rest =>
    by_cases hw : IsSlotFB m w = true
    · cases nstop with
      | zero =>
        simp [loadSlotGo, hw, hh, slotRun, List.takeWhile_cons_of_pos]
      | succ k =>
        have hd := loadSlotGo_data m rest k 1 w [] (Or.inr (by omega))
        simp [loadSlotGo, hw, hh, hd, slotRun, List.takeWhile_cons_of_pos hw,
          List.take_succ_cons]
        omega
    · simp [loadSlotGo, hw, slotRun, List.takeWhile_cons_of_neg]

/-- C5: for every Fastbus module whose family declares a header word
(`fHasHeader`), `LoadSlot` captures the first matching word of the scan as the
header without emitting a hit, decodes every subsequent matching word and
forwards it to the slot-data sink in buffer order, and stops at the first word
whose slot bits do not match or at the supplied bound `pstop` (word offset
`nstop`), whichever comes first: the processed words are exactly
`slotRun m ws nstop`, the matching prefix cut at the bound. -/
theorem c5_loadslot_header_scan (m : FastbusModule) (ws : List Nat) (nstop : Nat)
    (hh : m.fHasHeader = true) :
    (LoadSlot false m ws nstop).fHeader = (slotRun m ws nstop).headD 0 ∧
    (LoadSlot false m ws nstop).hits = ((slotRun m ws nstop).tail).map (decodeFB m) ∧
    (LoadSlot false m ws nstop).wordsSeen = (slotRun m ws nstop).length ∧
    (LoadSlot false m ws nstop).ret = (slotRun m ws nstop).length := by
  have hr := loadSlotGo_hdr m hh ws nstop
  simp [LoadSlot, hr]

/-- C6: when a captured Fastbus header declares an expected word count
(header masked with `fWdcntMask`) that differs from the words actually
consumed, the mismatch is a non-fatal diagnostic only: `LoadSlot` returns the
word count normally, the emitted hit list is exactly the decoded matching
prefix — unchanged from the no-mismatch case — and precisely one diagnostic
message is recorded. -/
theorem c6_wdcnt_mismatch_nonfatal (m : FastbusModule) (ws : List Nat) (nstop : Nat)
    (hh : m.fHasHeader = true)
    (hhdr : (LoadSlot false m ws nstop).fHeader ≠ 0)
    (hmis : (LoadSlot false m ws nstop).fHeader &&& m.fWdcntMask ≠
      (LoadSlot false m ws nstop).wordsSeen) :
    (LoadSlot false m ws nstop).ret = (LoadSlot false m ws nstop).wordsSeen ∧
    (LoadSlot false m ws nstop).hits = ((slotRun m ws nstop).tail).map (decodeFB m) ∧
    (LoadSlot false m ws nstop).diags = [wdcntMismatchMsg] := by
  have hr := loadSlotGo_hdr m hh ws nstop
  refine ⟨rfl, ?_, ?_⟩
  · simp [LoadSlot, hr]
  · simp only [LoadSlot] at hhdr hmis ⊢
    simp only [Bool.false_eq_true, if_false] at hhdr hmis ⊢
    rw [if_neg hhdr, if_neg hmis]
    simp

/-- Example module with a header word: slot 5, standard Fastbus masks,
word-count mask 0x7F. -/
def fbHdrExample : FastbusModule where
  fCrate := 1
  fSlot := 5
  fHasHeader := true
  fSlotMask := 0xF8000000
  fSlotShift := 27
  fChanMask := 0x001F0000
  fChanShift := 16
  fDataMask := 0x0000FFFF
  fWdcntMask := 0x7F

/-- Witness for `c5_loadslot_header_scan`: the first slot-5 word 0x28000005 is
captured as header, the slot-5 data word is decoded to channel 1, value
0x777, and scanning stops at the non-matching word. -/
theorem c5_loadslot_header_scan_witness :
    (LoadSlot false fbHdrExample [0x28000005, 0x28010777, 0] 9).fHeader = 0x28000005 ∧
    (LoadSlot false fbHdrExample [0x28000005, 0x28010777, 0] 9).hits =
      [(1, 0x777, 0x28010777)] ∧
    (LoadSlot false fbHdrExample [0x28000005, 0x28010777, 0] 9).wordsSeen = 2 := by
  have h := c5_loadslot_header_scan fbHdrExample [0x28000005, 0x28010777, 0] 9 (by decide)
  exact ⟨h.1.trans (by decide), h.2.1.trans (by decide), h.2.2.1.trans (by decide)⟩

/-- Witness for `c6_wdcnt_mismatch_nonfatal`: the header declares 5 words but
only 2 are consumed; the call still returns 2, the hit stands, and one
diagnostic is recorded. -/
theorem c6_wdcnt_mismatch_nonfatal_witness :
    (LoadSlot false fbHdrExample [0x28000005, 0x28010777, 0] 9).ret = 2 ∧
    (LoadSlot false fbHdrExample [0x28000005, 0x28010777, 0] 9).hits =
      [(1, 0x777, 0x28010777)] ∧
    (LoadSlot false fbHdrExample [0x28000005, 0x28010777, 0] 9).diags =
      [wdcntMismatchMsg] := by
  have h := c6_wdcnt_mismatch_nonfatal fbHdrExample [0x28000005, 0x28010777, 0] 9
    (by decide) (by decide) (by decide)
  exact ⟨h.1.trans (by decide), h.2.1.trans (by decide), h.2.2⟩

/-- C7 (counterexample): the bounds check of `LoadSlot` is guarded by a
function-local `static int first_load`, which is process-wide, not
per-instance.  After any module has called `LoadSlot` once, a DIFFERENT
module with an out-of-bounds crate (`fCrate = MAXROC`) makes its own first
call and is neither clamped to 0 nor logged — refuting "detected once per
decoder lifetime, on that decoder's first use". -/
theorem c7_counterexample :
    (LoadSlot (LoadSlot true fbExample [] 0).firstAfter
        { fbExample with fCrate := MAXROC } [] 0).modAfter.fCrate = MAXROC ∧
    (LoadSlot (LoadSlot true fbExample [] 0).firstAfter
        { fbExample with fCrate := MAXROC } [] 0).diags = [] ∧
    MAXROC ≠ 0 := by
  decide

/-- C7 (amended): the out-of-bounds check runs once per process, on the first
`LoadSlot` call of any Fastbus module: on that call an out-of-bounds crate
(`fCrate ≥ MAXROC`) or slot (`fSlot > MAXSLOT_FB`) is clamped to 0 and
logged, the static goes false, and decoding continues with the clamped
module; on every later call (static already false) no module is checked,
clamped, or logged. -/
theorem c7_amended :
    (∀ m ws nstop, (LoadSlot true m ws nstop).modAfter.fCrate =
        if MAXROC ≤ m.fCrate then 0 else m.fCrate) ∧
    (∀ m ws nstop, (LoadSlot true m ws nstop).modAfter.fSlot =
        if MAXSLOT_FB < m.fSlot then 0 else m.fSlot) ∧
    (∀ m ws nstop, MAXROC ≤ m.fCrate →
        crateBoundsMsg ∈ (LoadSlot true m ws nstop).diags) ∧
    (∀ m ws nstop, (LoadSlot true m ws nstop).firstAfter = false ∧
        (LoadSlot false m ws nstop).firstAfter = false) ∧
    (∀ m ws nstop, (LoadSlot false m ws nstop).modAfter = m ∧
        crateBoundsMsg ∉ (LoadSlot false m ws nstop).diags ∧
        slotBoundsMsg ∉ (LoadSlot false m ws nstop).diags) ∧
    (∀ m ws nstop, (LoadSlot true m ws nstop).ret =
        (loadSlotGo (clampCheck m).1 ws nstop 0 0 []).1) := by
  refine ⟨?_, ?_, ?_, ?_, ?_, ?_⟩
  · intro m ws nstop
    simp only [LoadSlot, clampCheck]
    split_ifs <;> simp_all
  · intro m ws nstop
    simp only [LoadSlot, clampCheck]
    split_ifs <;> simp_all
  · intro m ws nstop hc
    simp only [LoadSlot, clampCheck]
    rw [if_pos hc]
    split_ifs <;> simp
  · intro m ws nstop
    exact ⟨rfl, rfl⟩
  · intro m ws nstop
    refine ⟨rfl, ?_, ?_⟩ <;>
      · simp only [LoadSlot, Bool.false_eq_true, if_false]
        split_ifs <;> decide
  · intro m ws nstop
    rfl

/-- Witness for `c7_amended`: on the process-first call, a module with crate
40 (out of bounds) is clamped to 0 and the condition is logged. -/
theorem c7_amended_witness :
    (LoadSlot true { fbExample with fCrate := 40 } [] 0).modAfter.fCrate =
      (if MAXROC ≤ (40 : Nat) then 0 else 40) ∧
    crateBoundsMsg ∈ (LoadSlot true { fbExample with fCrate := 40 } [] 0).diags := by
  refine ⟨c7_amended.1 { fbExample with fCrate := 40 } [] 0, ?_⟩
  exact c7_amended.2.2.1 { fbExample with fCrate := 40 } [] 0 (by decide)

/-- Modelled from the spec: the CODA return codes (THaCodaData.h is not under
src/); the claims only need them distinct.  `CODA_OK`. -/
def CODA_OK : Int := 0

/-- Modelled from the spec: the CODA error return code, distinct from
`CODA_OK`. -/
def CODA_ERROR : Int := -1

/-- The event-size validation and copy logic of `THaEtClient::codaRead`,
parametrised by the configured maximum `maxevlen` (`MAXEVLEN` is not under
src/).  Each fetched event is checked first: `event_size = *pdata + 1`
(`headD 0` is word 0) must not exceed `maxevlen`, else the call returns
`CODA_ERROR` before anything is copied to `evbuffer`.  Then the current event
is copied (at most `4 * maxevlen` bytes, 4 bytes per word) and an over-long
byte count is reported as a second truncation error.  An empty fetch is
modelled as an error (the C code would read out of bounds). -/
def codaReadModel (maxevlen : Int) (chunk : List (List Int)) (evbuffer : List Int) :
    Int × List Int :=
  if chunk.any (fun ev => maxevlen < ev.headD 0 + 1) then (CODA_ERROR, evbuffer)
  else
    match chunk with
    | [] => (CODA_ERROR, evbuffer)
    | ev :: _ =>
      let nbytes : Int := 4 * ev.length
      let lencpy : Int := min nbytes (4 * maxevlen)
      let newbuf := ev.take (lencpy / 4).toNat
      if 4 * maxevlen < nbytes then (CODA_ERROR, newbuf) else (CODA_OK, newbuf)

/-- C8: a buffer whose declared length satisfies `word0 + 1 = MAXEVLEN` is
accepted — `codaRead` returns `CODA_OK` and the event is copied whole into
`evbuffer` — while a buffer with `word0 + 1 = MAXEVLEN + 1` fails the
truncation check with `CODA_ERROR` before anything is copied, so `evbuffer`
is untouched and the buffer produces zero hits. -/
theorem c8_maxevlen_boundary (maxevlen : Int) (ev bad buf0 : List Int)
    (hok : ev.headD 0 + 1 = maxevlen)
    (hlen : (ev.length : Int) = maxevlen)
    (hbad : bad.headD 0 + 1 = maxevlen + 1) :
    codaReadModel maxevlen [ev] buf0 = (CODA_OK, ev) ∧
    codaReadModel maxevlen [bad] buf0 = (CODA_ERROR, buf0) := by
  constructor
  · have h1 : ¬ (maxevlen < ev.headD 0 + 1) := by omega
    have h4 : (4 : Int) * maxevlen / 4 = maxevlen := by omega
    simp only [codaReadModel, List.any_cons, List.any_nil, Bool.or_false]
    rw [if_neg (by simpa using h1)]
    rw [hlen, min_self, h4, ← hlen]
    simp
  · have h2 : maxevlen < bad.headD 0 + 1 := by omega
    simp only [codaReadModel, List.any_cons, List.any_nil, Bool.or_false]
    rw [if_pos (by simpa using h2)]

/-- Witness for `c8_maxevlen_boundary` with `MAXEVLEN = 3`: the event
`[2, 7, 8]` (declared length 3) decodes, the event `[3, 1, 2, 3]` (declared
length 4) is rejected with `evbuffer` unchanged. -/
theorem c8_maxevlen_boundary_witness :
    codaReadModel 3 [[2, 7, 8]] [9] = (CODA_OK, [2, 7, 8]) ∧
    codaReadModel 3 [[3, 1, 2, 3]] [9] = (CODA_ERROR, [9]) :=
  c8_maxevlen_boundary 3 [2, 7, 8] [3, 1, 2, 3] [9] (by decide) (by decide) (by decide)

/-- The flag state of a `Decoder::THaEtClient` relevant to `isOpen`:
`notopened` (set to 1 when `et_open` fails in `init`), `didclose` (set to 1 by
`codaClose`), and `firstread` (1 until the first `codaRead`). -/
structure THaEtClient where
  notopened : Int
  didclose : Int
  firstread : Int
  deriving Repr, DecidableEq

/-- The `initflags` member initialization of the `THaEtClient` constructors:
`didclose(0), notopened(0), firstread(1)`. -/
def etClientInit : THaEtClient where
  notopened := 0
  didclose := 0
  firstread := 1

/-- `THaEtClient::isOpen()`: `notopened == 1 && didclose == 0`. -/
def isOpen (c : THaEtClient) : Bool :=
  c.notopened == 1 && c.didclose == 0

/-- Outcome of `et_station_create` in `THaEtClient::init`: `ET_ERROR_EXISTS`
is tolerated, every other failure aborts. -/
inductive StationStatus
  | stOk
  | stExists
  | stTooMany
  | stRemote
  | stReadErr
  | stWriteErr
  | stOther
  deriving Repr, DecidableEq

/-- `THaEtClient::init(station)`: a bad station name or any ET failure
returns `CODA_ERROR`; only the `et_open` failure sets `notopened = 1`.  The
external ET outcomes are passed as oracle arguments. -/
def initModel (c : THaEtClient) (stationNameOk etOpenOk : Bool)
    (st : StationStatus) (attachOk : Bool) : THaEtClient × Int :=
  if stationNameOk = false then (c, CODA_ERROR)
  else if etOpenOk = false then ({ c with notopened := 1 }, CODA_ERROR)
  else
    match st with
    | .stOk | .stExists =>
      if attachOk = false then (c, CODA_ERROR) else (c, CODA_OK)
    | _ => (c, CODA_ERROR)

/-- `THaEtClient::codaClose()`: a no-op returning `CODA_OK` when already
closed or never read; otherwise sets `didclose = 1` and reports errors for a
failed open or failed ET detach/close. -/
def codaCloseModel (c : THaEtClient) (detachOk closeOk : Bool) : THaEtClient × Int :=
  if c.didclose ≠ 0 ∨ c.firstread ≠ 0 then (c, CODA_OK)
  else
    let c1 := { c with didclose := 1 }
    if c1.notopened ≠ 0 then (c1, CODA_ERROR)
    else if detachOk = false then (c1, CODA_ERROR)
    else if closeOk = false then (c1, CODA_ERROR)
    else (c1, CODA_OK)

/-- C10: `isOpen()` returns true exactly when `notopened = 1` and
`didclose = 0`: only after an open attempt whose `et_open` failed (that being
the sole writer of `notopened = 1`) and that has not been followed by
`codaClose`.  In particular a successful `init` leaves the fresh client with
`notopened = 0`, so `isOpen()` is false, while a failed `et_open` on a fresh
client makes `isOpen()` true, and `codaClose` (after the first read) makes
`isOpen()` false again. -/
theorem c10_isOpen_iff :
    (∀ c : THaEtClient, isOpen c = true ↔ (c.notopened = 1 ∧ c.didclose = 0)) ∧
    (∀ sOk eOk st aOk, (initModel etClientInit sOk eOk st aOk).2 = CODA_OK →
      isOpen (initModel etClientInit sOk eOk st aOk).1 = false) ∧
    (∀ c st aOk, c.didclose = 0 →
      (initModel c true false st aOk).1.notopened = 1 ∧
      isOpen (initModel c true false st aOk).1 = true) ∧
    (∀ c dOk cOk, c.firstread = 0 →
      isOpen (codaCloseModel c dOk cOk).1 = false) := by
  refine ⟨?_, ?_, ?_, ?_⟩
  · intro c
    simp [isOpen]
  · intro sOk eOk st aOk hok
    by_cases hs : sOk = false
    · simp [initModel, hs, CODA_OK, CODA_ERROR] at hok
    · by_cases he : eOk = false
      · simp [initModel, hs, he, CODA_OK, CODA_ERROR] at hok
      · cases st <;> simp_all [initModel, isOpen, etClientInit, CODA_OK, CODA_ERROR] <;>
          by_cases ha : aOk = false <;> simp_all
  · intro c st aOk hdc
    simp [initModel, isOpen, hdc]
  · intro c dOk cOk hfr
    by_cases hdc : c.didclose = 0
    · simp [codaCloseModel, hdc, hfr, isOpen]
      split_ifs <;> simp
    · simp [codaCloseModel, hdc, isOpen]

/-- Witness for `c10_isOpen_iff`: after a fully successful `init` the client
is not "open" in the `isOpen` sense; after a failed `et_open` it is; after
`codaClose` it no longer is. -/
theorem c10_isOpen_iff_witness :
    isOpen (initModel etClientInit true true StationStatus.stOk true).1 = false ∧
    isOpen (initModel etClientInit true false StationStatus.stOk true).1 = true ∧
    isOpen (codaCloseModel ⟨1, 0, 0⟩ true true).1 = false := by
  refine ⟨c10_isOpen_iff.2.1 true true StationStatus.stOk true (by decide),
    (c10_isOpen_iff.2.2.1 etClientInit StationStatus.stOk true (by decide)).2,
    c10_isOpen_iff.2.2.2 ⟨1, 0, 0⟩ true true (by decide)⟩

/-- One logical line of a database file, as the scanning code classifies it:
`eqInfo = some (matches, value)` when the line contains an `=` (`IsDBkey`
returns nonzero; `matches` tells whether the left-hand side equals the
requested key, `value` the trimmed right-hand side), `dateTagVal = some d`
when the line is a valid SQL date tag (`IsDBdate`; dates are modelled as `Nat`
respecting the chronological order of `TDatime`, with the 1995-01-01 baseline
at 0), and `isTagLine` when the line matches the `IsTag` bracket pattern
(every date tag is also a tag). -/
structure DBLine where
  eqInfo : Option (Bool × String)
  dateTagVal : Option Nat
  isTagLine : Bool
  deriving Repr, DecidableEq

/-- The scan loop of `Podd::LoadDBvalue`.  State: `keydate` (date of the
current section), `prevdate` (date of the section of the last accepted key),
`doIgnore`, and the running result.  A line with `=` is examined only when
`doIgnore` is false (C short-circuit: `!do_ignore && IsDBkey(...)`), in which
case a matching key is accepted (`prevdate = keydate`, text updated) — the
last match wins; otherwise a date tag sets
`do_ignore = (keydate > date || keydate < prevdate)`. -/
def loadDBgo (date : Nat) :
    List DBLine → Nat → Nat → Bool → Option String → Option String
  | [], _, _, _, res => res
  | ln :: rest, keydate, prevdate, doIgnore, res =>
    match (if doIgnore then none else ln.eqInfo) with
    | some kv =>
      if kv.1 = true then loadDBgo date rest keydate keydate doIgnore (some kv.2)
      else loadDBgo date rest keydate prevdate doIgnore res
    | none =>
      match ln.dateTagVal with
      | some d =>
        loadDBgo date rest d prevdate (decide (date < d) || decide (d < prevdate)) res
      | none => loadDBgo date rest keydate prevdate doIgnore res

/-- `Podd::LoadDBvalue(file, date, key, text)`: scan all lines from the start
of the file; `some text` models a 0 (found) return with the accepted value,
`none` models 1 (key not found). -/
def LoadDBvalue (lines : List DBLine) (date : Nat) : Option String :=
  loadDBgo date lines 0 0 false none

/-- The claim's wording for `LoadDBvalue`, as a second definition to compare
against the code model: a key occurrence is ignored exactly when its section's
date exceeds the requested date or precedes the tag-date of the previously
accepted entry; the last surviving match is returned. -/
def specLoadDBgo (date : Nat) :
    List DBLine → Nat → Nat → Option String → Option String
  | [], _, _, res => res
  | ln :: rest, sectionDate, lastAcc, res =>
    match ln.dateTagVal with
    | some d => specLoadDBgo date rest d lastAcc res
    | none =>
      match ln.eqInfo with
      | some kv =>
        if kv.1 = true then
          if sectionDate ≤ date ∧ lastAcc ≤ sectionDate then
            specLoadDBgo date rest sectionDate sectionDate (some kv.2)
          else specLoadDBgo date rest sectionDate lastAcc res
        else specLoadDBgo date rest sectionDate lastAcc res
      | none => specLoadDBgo date rest sectionDate lastAcc res

/-- Entry point of the spec-worded `LoadDBvalue` model. -/
def specLoadDBvalue (lines : List DBLine) (date : Nat) : Option String :=
  specLoadDBgo date lines 0 0 none

/-- The scan loop of `Podd::SeekDBdate`.  `i` counts lines read, `prevdate`
is the previously accepted tag-date, `foundpos` the line index just after the
last accepted tag.  A date tag qualifies when its date is at most the
requested date and at least `prevdate`; a non-qualifying tag line ends the
search when `endOnTag` is set. -/
def seekDBgo (date : Nat) (endOnTag : Bool) :
    List DBLine → Nat → Nat → Option Nat → Option Nat
  | [], _, _, foundpos => foundpos
  | ln :: rest, i, prevdate, foundpos =>
    match ln.dateTagVal with
    | some d =>
      if d ≤ date ∧ prevdate ≤ d then
        seekDBgo date endOnTag rest (i + 1) d (some (i + 1))
      else if endOnTag = true ∧ ln.isTagLine = true then foundpos
      else seekDBgo date endOnTag rest (i + 1) prevdate foundpos
    | none =>
      if endOnTag = true ∧ ln.isTagLine = true then foundpos
      else seekDBgo date endOnTag rest (i + 1) prevdate foundpos

/-- `Podd::SeekDBdate(file, date, end_on_tag)`: `some i` models a return of 1
with the file positioned after line `i`; `none` models a return of 0 with the
file restored to the original position. -/
def SeekDBdate (lines : List DBLine) (date : Nat) (endOnTag : Bool) : Option Nat :=
  seekDBgo date endOnTag lines 0 0 none

/-- The claim's wording for `SeekDBdate`: position the file after the last
date tag in scan order whose tag-date is at most the requested date and at
least the previously accepted tag-date. -/
def specSeekGo (date : Nat) : List DBLine → Nat → Nat → Option Nat → Option Nat
  | [], _, _, acc => acc
  | ln :: rest, i, lastAcc, acc =>
    match ln.dateTagVal with
    | some d =>
      if d ≤ date ∧ lastAcc ≤ d then specSeekGo date rest (i + 1) d (some (i + 1))
      else specSeekGo date rest (i + 1) lastAcc acc
    | none => specSeekGo date rest (i + 1) lastAcc acc

/-- Entry point of the spec-worded `SeekDBdate` model. -/
def specSeekDBdate (lines : List DBLine) (date : Nat) : Option Nat :=
  specSeekGo date lines 0 0 none

example : LoadDBvalue
    [⟨none, some 10, true⟩, ⟨some (true, "v1"), none, false⟩,
     ⟨none, some 30, true⟩, ⟨some (true, "v2"), none, false⟩,
     ⟨none, some 15, true⟩, ⟨some (true, "v3"), none, false⟩] 20 = some "v3" := by
  decide

example : SeekDBdate
    [⟨none, some 10, true⟩, ⟨some (true, "v1"), none, false⟩,
     ⟨none, some 30, true⟩, ⟨some (true, "v2"), none, false⟩,
     ⟨none, some 15, true⟩, ⟨some (true, "v3"), none, false⟩] 20 false = some 5 := by
  decide

theorem seekDBgo_eq_spec (date : Nat) :
    ∀ (lines : List DBLine) (i prevdate : Nat) (fp : Option Nat),
      seekDBgo date false lines i prevdate fp = specSeekGo date lines i prevdate fp := by
  intro lines
  induction lines with
  | nil => intro i prevdate fp; rfl
  | cons ln rest ih =>
    intro i prevdate fp
    cases hdt : ln.dateTagVal with
    | some d =>
      simp only [seekDBgo, specSeekGo, hdt]
      split_ifs with h1 h2
      · exact ih (i + 1) d (some (i + 1))
      · exact h2.1.elim
      · exact ih (i + 1) prevdate fp
    | none =>
      simp only [seekDBgo, specSeekGo, hdt]
      rw [if_neg (by simp)]
      exact ih (i + 1) prevdate fp

theorem loadDBgo_eq_spec (date : Nat) :
    ∀ (lines : List DBLine) (keydate prevdate : Nat) (res : Option String),
      (∀ ln ∈ lines, ln.eqInfo.isSome = true → ln.dateTagVal = none) →
      loadDBgo date lines keydate prevdate
        (decide (date < keydate) || decide (keydate < prevdate)) res =
      specLoadDBgo date lines keydate prevdate res := by
  intro lines
  induction lines with
  | nil => intro keydate prevdate res h; rfl
  | cons ln rest ih =>
    intro keydate prevdate res hdis
    have hdis2 : ∀ x ∈ rest, x.eqInfo.isSome = true → x.dateTagVal = none :=
      fun x hx => hdis x (List.mem_cons_of_mem _ hx)
    cases heq : ln.eqInfo with
    | some kv =>
      have hdt : ln.dateTagVal = none := hdis ln (List.mem_cons_self _ _) (by simp [heq])
      by_cases hig : (decide (date < keydate) || decide (keydate < prevdate)) = true
      · have hcond : ¬(keydate ≤ date ∧ prevdate ≤ keydate) := by
          simp at hig
          omega
        simp only [loadDBgo, specLoadDBgo, heq, hdt, if_pos hig]
        rcases kv with ⟨b, v⟩
        cases b
        · exact ih keydate prevdate res hdis2
        · rw [if_pos rfl, if_neg hcond]
          exact ih keydate prevdate res hdis2
      · have h1 : decide (date < keydate) = false := by
          simp only [Bool.or_eq_true, decide_eq_true_eq] at hig
          simp
          omega
        have h2 : decide (keydate < keydate) = false := by simp
        have h3 : decide (keydate < prevdate) = false := by
          simp only [Bool.or_eq_true, decide_eq_true_eq] at hig
          simp
          omega
        have hcond : keydate ≤ date ∧ prevdate ≤ keydate := by
          simp only [Bool.or_eq_true, decide_eq_true_eq] at hig
          omega
        simp only [loadDBgo, specLoadDBgo, heq, hdt, if_neg hig]
        rcases kv with ⟨b, v⟩
        cases b
        · simp only [Bool.false_eq_true, if_false]
          exact ih keydate prevdate res hdis2
        · simp only [if_pos rfl, if_pos hcond]
          rw [h1, h3]
          have ihx := ih keydate keydate (some v) hdis2
          rw [h1, h2] at ihx
          exact ihx
    | none =>
      cases hdt : ln.dateTagVal with
      | some d =>
        simp only [loadDBgo, specLoadDBgo, heq, hdt, ite_self]
        exact ih d prevdate res hdis2
      | none =>
        simp only [loadDBgo, specLoadDBgo, heq, hdt, ite_self]
        exact ih keydate prevdate res hdis2

/-- C9: the precedence rule for time-stamped database entries.  `SeekDBdate`
positions the file after the last date tag in scan order whose tag-date is at
most the requested date and at least the previously accepted tag-date; and —
for well-formed files whose key lines are not simultaneously date tags —
`LoadDBvalue` ignores key occurrences in sections whose date exceeds the
requested date or precedes the previously accepted tag-date, returning the
last surviving match.  Both code models equal the spec-worded models. -/
theorem c9_db_date_precedence (date : Nat) (lines : List DBLine) :
    SeekDBdate lines date false = specSeekDBdate lines date ∧
    ((∀ ln ∈ lines, ln.eqInfo.isSome = true → ln.dateTagVal = none) →
      LoadDBvalue lines date = specLoadDBvalue lines date) := by
  constructor
  · exact seekDBgo_eq_spec date lines 0 0 none
  · intro hdis
    have h := loadDBgo_eq_spec date lines 0 0 none hdis
    have h0 : (decide (date < 0) || decide ((0 : Nat) < 0)) = false := by simp
    rw [h0] at h
    exact h

/-- A concrete database: sections dated 10, 30 and 15, one key line each,
queried at date 20. -/
def dbLinesEx : List DBLine :=
  [⟨none, some 10, true⟩, ⟨some (true, "v1"), none, false⟩,
   ⟨none, some 30, true⟩, ⟨some (true, "v2"), none, false⟩,
   ⟨none, some 15, true⟩, ⟨some (true, "v3"), none, false⟩]

/-- Witness for `c9_db_date_precedence`: at requested date 20, section 30 is
ignored, sections 10 then 15 are accepted in scan order, the value from the
last surviving section (15) wins, and the seek lands after line 5 (the 15
tag). -/
theorem c9_db_date_precedence_witness :
    SeekDBdate dbLinesEx 20 false = specSeekDBdate dbLinesEx 20 ∧
    LoadDBvalue dbLinesEx 20 = specLoadDBvalue dbLinesEx 20 ∧
    LoadDBvalue dbLinesEx 20 = some "v3" ∧
    SeekDBdate dbLinesEx 20 false = some 5 := by
  refine ⟨(c9_db_date_precedence 20 dbLinesEx).1,
    (c9_db_date_precedence 20 dbLinesEx).2 (by decide), by decide, by decide⟩
